import Mathlib

/-!
Shallow embedding of the text-prompting protocol examples
(`examples/prompting.ipynb` and `examples/streaming.ipynb`).

Python strings are modelled as Lean `String` (with `List Char` data where
character-level reasoning is required); Python's fallible list indexing is
modelled with `Option`; the `send` calls of the streaming producer are
modelled as the ordered list of flush records they emit.
-/

namespace TextPrompting

/-- Model of Python `str.split(sep)` for a one-character separator `sep`,
at the `List Char` level.  Matches Python semantics:
`"".split(c) = [""]`, `"a\nb".split("\n") = ["a","b"]`,
`"\n".split("\n") = ["",""]`. -/
def splitChar (sep : Char) : List Char → List (List Char)
  | [] => [[]]
  | c :: cs =>
    let rest := splitChar sep cs
    if c = sep then [] :: rest
    else
      match rest with
      | [] => [[c]]
      | r :: rs => (c :: r) :: rs

theorem splitChar_ne_nil (sep : Char) (l : List Char) : splitChar sep l ≠ [] := by
  cases l with
  | nil => simp [splitChar]
  | cons c cs =>
    simp only [splitChar]
    split
    · simp
    · split <;> simp

theorem join_splitChar (sep : Char) (l : List Char) :
    (splitChar sep l).flatten = l.filter (fun c => c ≠ sep) := by
  induction l with
  | nil => simp [splitChar]
  | cons c cs ih =>
    by_cases hc : c = sep
    · subst hc
      simp [splitChar, ih]
    · cases h : splitChar sep cs with
      | nil => exact absurd h (splitChar_ne_nil sep cs)
      | cons r rs =>
        simp only [splitChar, if_neg hc, h, List.flatten_cons]
        rw [List.filter_cons_of_pos (by simp [hc])]
        have : List.flatten (r :: rs) = cs.filter (fun c => c ≠ sep) := by
          rw [← h]; exact ih
        simp only [List.flatten_cons] at this
        simp [this]

theorem foldl_skip_empty (parts : List (List Char)) (acc : List Char) :
    parts.foldl (fun a t => if t = [] then a else a ++ t) acc = acc ++ parts.flatten := by
  induction parts generalizing acc with
  | nil => simp
  | cons p ps ih =>
    simp only [List.foldl_cons, List.flatten_cons, ih]
    by_cases hp : p = []
    · subst hp; simp
    · rw [if_neg hp, List.append_assoc]

/-- Envelope of `examples/prompting.ipynb`: `class Prompting(bt.Synapse)`.
`roles` and `messages` are required pydantic fields declared with
`allow_mutation=False`; `completion` is a mutable field with default `""`. -/
structure Prompting where
  roles : List String
  messages : List String
  completion : String := ""
deriving DecidableEq

/-- `Prompting.deserialize`: `def deserialize(self): return self.completion`. -/
def Prompting.deserialize (self : Prompting) : String := self.completion

/-- `Prompting.required_hash_fields` property: `return ['messages']`. -/
def Prompting.required_hash_fields (self : Prompting) : List String := ["messages"]

/-- Modelled from the source's pydantic declaration `allow_mutation=False`
on `roles` (with `Config.validate_assignment = True`): an attempted
assignment to `roles` after construction raises, yielding no updated
envelope.  Embedded as an `Option`-valued setter that always fails. -/
def Prompting.setRoles (self : Prompting) (v : List String) : Option Prompting := none

/-- Modelled from the source's pydantic declaration `allow_mutation=False`
on `messages`: an attempted assignment to `messages` after construction
raises, yielding no updated envelope. -/
def Prompting.setMessages (self : Prompting) (v : List String) : Option Prompting := none

/-- Envelope of `examples/streaming.ipynb`:
`class StreamPrompting(bt.StreamingSynapse)`, with the same three fields as
`Prompting` (`roles` and `messages` declared `allow_mutation=False`,
`completion` mutable with default `""`). -/
structure StreamPrompting where
  roles : List String
  messages : List String
  completion : String := ""
deriving DecidableEq

/-- `StreamPrompting.deserialize`: `return self.completion`. -/
def StreamPrompting.deserialize (self : StreamPrompting) : String := self.completion

/-- Modelled from the source's pydantic declaration `allow_mutation=False`
on `roles`: an attempted assignment after construction raises. -/
def StreamPrompting.setRoles (self : StreamPrompting) (v : List String) :
    Option StreamPrompting := none

/-- Modelled from the source's pydantic declaration `allow_mutation=False`
on `messages`: an attempted assignment after construction raises. -/
def StreamPrompting.setMessages (self : StreamPrompting) (v : List String) :
    Option StreamPrompting := none

/-- Loop body of `StreamPrompting.process_streaming_response` for one chunk:
`tokens = chunk.decode('utf-8').split('\n'); for token in tokens: if token:
self.completion += token`.  The chunk is modelled by its decoded text. -/
def processChunkData (completion chunk : List Char) : List Char :=
  (splitChar '\n' chunk).foldl (fun acc token => if token = [] then acc else acc ++ token)
    completion

/-- One iteration of the `async for chunk in response.content.iter_any()`
loop of `StreamPrompting.process_streaming_response`. -/
def StreamPrompting.processChunk (self : StreamPrompting) (chunk : String) : StreamPrompting :=
  { self with completion := ⟨processChunkData self.completion.data chunk.data⟩ }

/-- `StreamPrompting.process_streaming_response`: folds the chunk loop over
the arrived chunks (each modelled by its utf-8 decoded text).  The guard
`if self.completion is None: self.completion = ""` is dead in this typed
model, where `completion` is always a string (the pydantic field is typed
`str` with default `""`). -/
def StreamPrompting.process_streaming_response (self : StreamPrompting)
    (chunks : List String) : StreamPrompting :=
  chunks.foldl StreamPrompting.processChunk self

/-- One ASGI `send` message of the streaming producer `_prompt`:
`{"type": "http.response.body", "body": joined_buffer.encode("utf-8"),
"more_body": ...}`.  The body is modelled by its decoded text. -/
structure Flush where
  body : String
  more_body : Bool
deriving DecidableEq

namespace StreamingMiner

/-- The token loop of `_prompt` in `examples/streaming.ipynb`: tokens are
buffered; a full buffer of `N = 4` tokens is flushed with
`more_body = True`; when the producer completes, a non-empty remaining
buffer is flushed with `more_body = False` (`if buffer:` guard). -/
def _promptLoop (buffer : List String) : List String → List Flush
  | [] =>
    if buffer = [] then []
    else [{ body := String.join buffer, more_body := false }]
  | t :: ts =>
    let buffer' := buffer ++ [t]
    if buffer'.length = 4 then
      { body := String.join buffer', more_body := true } :: _promptLoop [] ts
    else
      _promptLoop buffer' ts

/-- `_prompt(text, send)`: the model decodes `text` into a finite token
sequence (`tok` stands for the external tokenizer/model pipeline
`tokenizer` + `model`), which the loop streams out as flushes. -/
def _prompt (tok : String → List String) (text : String) : List Flush :=
  _promptLoop [] (tok text)

/-- The handler `prompt(synapse)` of `examples/streaming.ipynb`:
`message = synapse.messages[0]` (fallible index, modelled with `Option`),
then the streaming response is driven by `partial(_prompt, message)`. -/
def prompt (tok : String → List String) (synapse : StreamPrompting) :
    Option (List Flush) :=
  match synapse.messages[0]? with
  | none => none
  | some message => some (_prompt tok message)

/-- `blacklist(synapse)` of `examples/streaming.ipynb`: `return False, ""`;
the body performs no field assignment, so in this state-passing embedding
the returned envelope is the input. -/
def blacklist (synapse : StreamPrompting) : (Bool × String) × StreamPrompting :=
  ((false, ""), synapse)

/-- `priority(synapse)` of `examples/streaming.ipynb`: `return 0.0`; the
body performs no field assignment, so in this state-passing embedding the
returned envelope is the input. -/
def priority (synapse : StreamPrompting) : Float × StreamPrompting :=
  (0.0, synapse)

end StreamingMiner

namespace PromptingMiner

/-- The handler `prompt(synapse)` of `examples/prompting.ipynb`:
`synapse.completion = "I am a chatbot"; return synapse`. -/
def prompt (synapse : Prompting) : Prompting :=
  { synapse with completion := "I am a chatbot" }

/-- `blacklist(synapse)` of `examples/prompting.ipynb`: `return False, ""`. -/
def blacklist (synapse : Prompting) : (Bool × String) × Prompting :=
  ((false, ""), synapse)

/-- `priority(synapse)` of `examples/prompting.ipynb`: `return 0.0`. -/
def priority (synapse : Prompting) : Float × Prompting :=
  (0.0, synapse)

end PromptingMiner

/-- Refinement reference for the streaming producer, following the spec's
words: the tokens are flushed in order in full batches of 4 marked
more-data, "plus a final flush of any remainder when the producer
completes" marked final.  To be compared with the loop `_promptLoop`
embedded from the source. -/
def specFlushes (l : List String) : List Flush :=
  if l = [] then []
  else if l.length < 4 then [{ body := String.join l, more_body := false }]
  else { body := String.join (l.take 4), more_body := true } :: specFlushes (l.drop 4)
termination_by l.length
decreasing_by
  simp only [List.length_drop]
  omega

theorem _promptLoop_eq_specFlushes (ts : List String) :
    ∀ buffer : List String, buffer.length < 4 →
      StreamingMiner._promptLoop buffer ts = specFlushes (buffer ++ ts) := by
  induction ts with
  | nil =>
    intro buffer h
    by_cases hb : buffer = []
    · subst hb
      simp [StreamingMiner._promptLoop, specFlushes]
    · rw [List.append_nil, StreamingMiner._promptLoop, if_neg hb, specFlushes,
        if_neg hb, if_pos h]
  | cons t ts ih =>
    intro buffer h
    by_cases h4 : (buffer ++ [t]).length = 4
    · have h1 : StreamingMiner._promptLoop buffer (t :: ts)
          = { body := String.join (buffer ++ [t]), more_body := true }
              :: StreamingMiner._promptLoop [] ts := by
        simp only [StreamingMiner._promptLoop]
        rw [if_pos h4]
      have hne : (buffer ++ [t]) ++ ts ≠ [] := by simp
      have hlen : ((buffer ++ [t]) ++ ts).length = 4 + ts.length := by
        rw [List.length_append, h4]
      have hnl : ¬ ((buffer ++ [t]) ++ ts).length < 4 := by omega
      have h2 : specFlushes (buffer ++ t :: ts)
          = { body := String.join (buffer ++ [t]), more_body := true }
              :: specFlushes ts := by
        rw [show buffer ++ t :: ts = (buffer ++ [t]) ++ ts by simp,
          specFlushes, if_neg hne, if_neg hnl,
          show ((buffer ++ [t]) ++ ts).take 4 = buffer ++ [t] by
            rw [← h4]; exact List.take_left _ _,
          show ((buffer ++ [t]) ++ ts).drop 4 = ts by
            rw [← h4]; exact List.drop_left _ _]
      rw [h1, h2, ih [] (by norm_num), List.nil_append]
    · have h' : (buffer ++ [t]).length < 4 := by
        rw [List.length_append] at h4 ⊢
        simp only [List.length_singleton] at h4 ⊢
        omega
      have h1 : StreamingMiner._promptLoop buffer (t :: ts)
          = StreamingMiner._promptLoop (buffer ++ [t]) ts := by
        simp only [StreamingMiner._promptLoop]
        rw [if_neg h4]
      rw [h1, ih (buffer ++ [t]) h',
        show (buffer ++ [t]) ++ ts = buffer ++ t :: ts by simp]

/-- The per-chunk accumulation appends exactly the chunk text with every
newline character removed. -/
theorem processChunkData_eq (completion chunk : List Char) :
    processChunkData completion chunk
      = completion ++ chunk.filter (fun c => c ≠ '\n') := by
  rw [processChunkData, foldl_skip_empty, join_splitChar]

/-- The string a chunk contributes to `completion`: its text with the
newline characters dropped (decoded, split on newline, non-empty fragments
concatenated). -/
def stripNewlines (s : String) : String :=
  ⟨s.data.filter (fun c => c ≠ '\n')⟩

theorem processChunk_completion (s : StreamPrompting) (chunk : String) :
    (s.processChunk chunk).completion = s.completion ++ stripNewlines chunk := by
  apply String.ext
  rw [String.data_append]
  exact processChunkData_eq s.completion.data chunk.data

theorem processChunk_roles (s : StreamPrompting) (chunk : String) :
    (s.processChunk chunk).roles = s.roles := rfl

theorem processChunk_messages (s : StreamPrompting) (chunk : String) :
    (s.processChunk chunk).messages = s.messages := rfl

theorem join_data (l : List String) :
    (String.join l).data = (l.map String.data).flatten := by
  have key : ∀ (l : List String) (acc : String),
      (l.foldl (fun r s => r ++ s) acc).data = acc.data ++ (l.map String.data).flatten := by
    intro l
    induction l with
    | nil => intro acc; simp
    | cons s ss ih =>
      intro acc
      simp only [List.foldl_cons, List.map_cons, List.flatten_cons, ih,
        String.data_append, List.append_assoc]
  exact key l ""

/-- Master description of the streaming reassembly: the final completion is
the prior completion followed by the newline-stripped chunk texts in
arrival order. -/
theorem process_streaming_response_completion (s : StreamPrompting)
    (chunks : List String) :
    (s.process_streaming_response chunks).completion
      = s.completion ++ String.join (chunks.map stripNewlines) := by
  induction chunks generalizing s with
  | nil =>
    apply String.ext
    simp [StreamPrompting.process_streaming_response, join_data]
  | cons c cs ih =>
    have hstep : s.process_streaming_response (c :: cs)
        = (s.processChunk c).process_streaming_response cs := rfl
    rw [hstep, ih, processChunk_completion]
    apply String.ext
    simp [String.data_append, join_data]

theorem process_streaming_response_roles (s : StreamPrompting)
    (chunks : List String) :
    (s.process_streaming_response chunks).roles = s.roles := by
  induction chunks generalizing s with
  | nil => rfl
  | cons c cs ih =>
    have hstep : s.process_streaming_response (c :: cs)
        = (s.processChunk c).process_streaming_response cs := rfl
    rw [hstep, ih, processChunk_roles]

theorem process_streaming_response_messages (s : StreamPrompting)
    (chunks : List String) :
    (s.process_streaming_response chunks).messages = s.messages := by
  induction chunks generalizing s with
  | nil => rfl
  | cons c cs ih =>
    have hstep : s.process_streaming_response (c :: cs)
        = (s.processChunk c).process_streaming_response cs := rfl
    rw [hstep, ih, processChunk_messages]

theorem stripNewlines_of_no_newline (s : String) (h : '\n' ∉ s.data) :
    stripNewlines s = s := by
  apply String.ext
  show s.data.filter (fun c => c ≠ '\n') = s.data
  rw [List.filter_eq_self]
  intro a ha
  simp only [ne_eq, decide_eq_true_eq]
  intro he
  exact h (he ▸ ha)

/-- A concrete envelope used to instantiate counterexamples and witnesses. -/
def sampleStream : StreamPrompting := { roles := ["user"], messages := ["hi"] }

/-- C1: the claim that the final completion always equals the raw
concatenation of the chunk texts is false: for the single chunk `"a\nb"`
the assembler drops the newline and stores `"ab"`, not `"a\nb"`. -/
theorem streaming_raw_concat_counterexample :
    (sampleStream.process_streaming_response ["a\nb"]).completion ≠ "a\nb" ∧
    (sampleStream.process_streaming_response ["a\nb"]).completion = "ab" :=
  ⟨by decide, by decide⟩

/-- C1 (amended): chunks are appended to `completion` in arrival order with
newline characters stripped; when no chunk contains a newline — as with the
producer's flushes for tokens `["a","b","c","d","e"]`, namely `"abcd"` then
`"e"` — the final completion is exactly the concatenation of the chunk
texts, with chunk boundaries carrying no semantic meaning. -/
theorem streaming_concat_of_no_newline (s : StreamPrompting) (chunks : List String)
    (h : ∀ ch ∈ chunks, '\n' ∉ ch.data) :
    (s.process_streaming_response chunks).completion
      = s.completion ++ String.join chunks := by
  rw [process_streaming_response_completion]
  have hmap : chunks.map stripNewlines = chunks.map id :=
    List.map_congr_left fun ch hch => stripNewlines_of_no_newline ch (h ch hch)
  rw [hmap, List.map_id]

/-- C1 witness: the spec's example — receiving the two flushes `"abcd"` and
`"e"` yields final completion `"abcde"`. -/
theorem streaming_concat_witness :
    (∀ ch ∈ (["abcd", "e"] : List String), '\n' ∉ ch.data) ∧
    (sampleStream.process_streaming_response ["abcd", "e"]).completion = "abcde" :=
  ⟨by decide,
    (streaming_concat_of_no_newline sampleStream ["abcd", "e"] (by decide)).trans
      (by decide)⟩

/-- C2: the claim that the terminal flush is always marked final is false:
for the four-token sequence `["a","b","c","d"]` the producer emits exactly
one flush, `"abcd"` with `more_body = true`, and no flush marked final. -/
theorem flush_final_marker_counterexample :
    StreamingMiner._prompt (fun _ => ["a", "b", "c", "d"]) "msg"
      = [{ body := "abcd", more_body := true }] ∧
    ¬ ∀ f : Flush,
        (StreamingMiner._prompt (fun _ => ["a", "b", "c", "d"]) "msg").getLast? = some f →
        f.more_body = false := by
  refine ⟨by decide, fun hall => ?_⟩
  have hlast := hall { body := "abcd", more_body := true } (by decide)
  simp at hlast

/-- C2 (amended): the producer flushes the tokens in order in full batches
of 4 marked more-data, plus a final flush of any non-empty remainder marked
final; when the token count is a positive multiple of 4 the remainder is
empty, no flush marked final is sent, and the terminal flush is a full
batch marked more-data.  Stated as equality with `specFlushes`, the
batch-then-remainder reference function. -/
theorem flushes_eq_specFlushes (tok : String → List String) (text : String) :
    StreamingMiner._prompt tok text = specFlushes (tok text) :=
  (_promptLoop_eq_specFlushes (tok text) [] (by norm_num)).trans
    (by rw [List.nil_append])

/-- C3: for both envelope kinds, `deserialize()` returns exactly the
current `completion`; in particular after the prompting handler has written
its completion, `deserialize()` returns exactly that written string. -/
theorem deserialize_returns_completion (p : Prompting) (s : StreamPrompting) :
    p.deserialize = p.completion ∧ s.deserialize = s.completion ∧
    (PromptingMiner.prompt p).deserialize = "I am a chatbot" :=
  ⟨rfl, rfl, rfl⟩

/-- C4: `roles` and `messages` never mutate after construction: the
prompting handler, the streaming reassembly, and the blacklist and
priority stages all leave both fields unchanged (`deserialize` returns a
string and touches no field), and an attempted assignment to either field
is rejected (the pydantic `allow_mutation=False` setters yield no updated
envelope). -/
theorem roles_messages_immutable (p : Prompting) (s : StreamPrompting)
    (chunks : List String) (v : List String) :
    (PromptingMiner.prompt p).roles = p.roles ∧
    (PromptingMiner.prompt p).messages = p.messages ∧
    (s.process_streaming_response chunks).roles = s.roles ∧
    (s.process_streaming_response chunks).messages = s.messages ∧
    (PromptingMiner.blacklist p).2 = p ∧
    (PromptingMiner.priority p).2 = p ∧
    (StreamingMiner.blacklist s).2 = s ∧
    (StreamingMiner.priority s).2 = s ∧
    p.setRoles v = none ∧ p.setMessages v = none ∧
    s.setRoles v = none ∧ s.setMessages v = none :=
  ⟨rfl, rfl, process_streaming_response_roles s chunks,
    process_streaming_response_messages s chunks,
    rfl, rfl, rfl, rfl, rfl, rfl, rfl, rfl⟩

/-- C5: `required_hash_fields` is exactly the one-element list
`['messages']`; neither `roles` nor `completion` is ever included. -/
theorem required_hash_fields_only_messages (p : Prompting) :
    p.required_hash_fields = ["messages"] ∧
    "roles" ∉ p.required_hash_fields ∧
    "completion" ∉ p.required_hash_fields :=
  ⟨rfl, by rw [Prompting.required_hash_fields]; decide,
    by rw [Prompting.required_hash_fields]; decide⟩

/-- C6: both example priority functions return the numeric value `0.0` and
leave every field of the envelope unchanged (the returned state equals the
input envelope). -/
theorem priority_zero_no_mutation (p : Prompting) (s : StreamPrompting) :
    PromptingMiner.priority p = (0.0, p) ∧ StreamingMiner.priority s = (0.0, s) :=
  ⟨rfl, rfl⟩

/-- C7: an envelope constructed with only `roles` and `messages` supplied
has `completion = ""` at creation, for both envelope kinds. -/
theorem completion_empty_at_creation (r m : List String) :
    ({ roles := r, messages := m } : Prompting).completion = "" ∧
    ({ roles := r, messages := m } : StreamPrompting).completion = "" :=
  ⟨rfl, rfl⟩

/-- C8: the streaming handler reads only `messages[0]`: its output is
determined by the head of `messages` alone (in bounds whenever `messages`
is non-empty), and the access fails — the handler produces no streamed
output — exactly when `messages` is empty, so non-emptiness of `messages`
is a necessary precondition. -/
theorem stream_prompt_reads_first_message (tok : String → List String)
    (s : StreamPrompting) :
    StreamingMiner.prompt tok s
      = s.messages.head?.map (fun m => StreamingMiner._prompt tok m) ∧
    (StreamingMiner.prompt tok s = none ↔ s.messages = []) := by
  cases h : s.messages with
  | nil => constructor <;> simp [StreamingMiner.prompt, h]
  | cons m ms => constructor <;> simp [StreamingMiner.prompt, h]

/-- C9: the streaming assembler only appends: the completion before
`process_streaming_response` is an initial segment of the completion
afterwards — the new value is the old value followed by some suffix, for
every streamed response. -/
theorem completion_only_appended (s : StreamPrompting) (chunks : List String) :
    ∃ t : String,
      (s.process_streaming_response chunks).completion = s.completion ++ t :=
  ⟨String.join (chunks.map stripNewlines),
    process_streaming_response_completion s chunks⟩

/-- C10: for every chunk, the text appended to `completion` is exactly the
chunk's decoded text with all newline characters removed (the chunk is
split on newline and the non-empty fragments concatenated), so the
assembler never writes a newline character into `completion`. -/
theorem chunk_append_strips_newlines (s : StreamPrompting) (chunk : String) :
    s.process_streaming_response [chunk] = s.processChunk chunk ∧
    (s.processChunk chunk).completion
      = s.completion ++ String.mk (chunk.data.filter (fun c => c ≠ '\n')) :=
  ⟨rfl, processChunk_completion s chunk⟩

end TextPrompting
